import Mathlib

/-!
# Shallow embedding of `nrmllib/hazard/writers.py`

This file embeds the NRML hazard XML writers (`src/nrmllib/hazard/writers.py`)
in Lean 4 and proves/refutes the frozen claims about them.

Modelling conventions:

* Scalar metadata and record values (floats, ints rendered with Python `str`,
  plain strings) are carried as their textual renderings (`String`), since the
  writers only ever apply `str` to them before emission; `str` on an
  already-rendered value is the identity.  The one place where the *numeric*
  structure of a rendered value matters (mesh row/col indices, disaggregation
  matrix shapes and cell indices, which are nonnegative integers produced by
  enumeration) uses `natRepr`, an explicit decimal rendering of `Nat` that
  models Python's `str` on a nonnegative `int`.
* A Python keyword-argument metadata dict is a record of `Option`-valued
  fields; `md.get(k)` is field access.
* The XML tree built through lxml is the inductive type `XElem`:
  `etree.SubElement` appends a child, `.set` appends an attribute (all
  attribute keys written by this code are fresh at the time they are set, so
  append order equals insertion order), `.text` sets the text.
* `raise ValueError(msg)` is `Except.error msg`; a writer method that can
  raise returns `Except String _`.
* The constructors of the three metadata-carrying writers run the validator
  before the object becomes usable, so they are embedded as functions
  returning `Except String <writer>`; the other three constructors cannot
  fail and are plain functions.
-/

/-- Model of Python `sep.join(pieces)`. -/
def pyJoin (sep : String) : List String → String
  | [] => ""
  | [s] => s
  | s :: rest => s ++ sep ++ pyJoin sep rest

/-- The join of `pyJoin`, on explicit character lists (used for reasoning). -/
def charJoin (sep : List Char) : List (List Char) → List Char
  | [] => []
  | [p] => p
  | p :: rest => p ++ sep ++ charJoin sep rest

/-- Decimal digit to character, as in Python's rendering of nonneg ints. -/
def digitChr : Nat → Char
  | 0 => '0'
  | 1 => '1'
  | 2 => '2'
  | 3 => '3'
  | 4 => '4'
  | 5 => '5'
  | 6 => '6'
  | 7 => '7'
  | 8 => '8'
  | 9 => '9'
  | _ => '*'

/-- Model of Python `str(n)` for a nonnegative integer `n`: standard decimal
rendering, most significant digit first. -/
def natRepr (n : Nat) : String :=
  if n = 0 then "0"
  else String.mk (((Nat.digits 10 n).map digitChr).reverse)

/-- An XML element: tag, attributes (in insertion order), optional text,
children (in insertion order).  This is the tree built through
`lxml.etree.Element` / `SubElement` / `.set` / `.text`. -/
inductive XElem where
  | mk : String → List (String × String) → Option String → List XElem → XElem

/-- The element's tag. -/
def XElem.tag : XElem → String
  | .mk t _ _ _ => t

/-- The element's attribute list, in insertion order. -/
def XElem.attrs : XElem → List (String × String)
  | .mk _ a _ _ => a

/-- The element's text content. -/
def XElem.txt : XElem → Option String
  | .mk _ _ t _ => t

/-- The element's children, in insertion order. -/
def XElem.children : XElem → List XElem
  | .mk _ _ _ c => c

/-- Lookup of an attribute by name (first match). -/
def XElem.attr (e : XElem) (k : String) : Option String :=
  (e.attrs.find? (fun p => p.1 == k)).map (·.2)

/-- Modelled from the spec: the namespace map `nrmllib.SERIALIZE_NS_MAP` lives
in the `nrmllib` package root, which is not part of the sources; only the
presence of a fixed string under the `gml` key matters to the writers, its
concrete URI value is opaque here. -/
def gml_ns : String := "gml"

/-- The metadata keyword-argument dict shared by the writers.  Every field is
optional, mirroring Python's `md.get(key)` returning `None` for missing keys.
List-valued entries (`imls`, the bin-edge lists) keep their elements as
rendered strings. -/
structure Metadata where
  statistics : Option String := none
  quantile_value : Option String := none
  smlt_path : Option String := none
  gsimlt_path : Option String := none
  imt : Option String := none
  investigation_time : Option String := none
  sa_period : Option String := none
  sa_damping : Option String := none
  poe : Option String := none
  lon : Option String := none
  lat : Option String := none
  imls : Option (List String) := none
  mag_bin_edges : Option (List String) := none
  dist_bin_edges : Option (List String) := none
  lon_bin_edges : Option (List String) := none
  lat_bin_edges : Option (List String) := none
  eps_bin_edges : Option (List String) := none
  tectonic_region_types : Option (List String) := none
deriving DecidableEq

/-- `_validate_hazard_metadata(md)` from `writers.py`: the shared cross-field
consistency check, returning `Except.error msg` exactly where the Python code
raises `ValueError(msg)` (checks performed in source order). -/
def _validate_hazard_metadata (md : Metadata) : Except String Unit :=
  if md.statistics.isSome && (md.smlt_path.isSome || md.gsimlt_path.isSome) then
    .error "Cannot specify both `statistics` and logic tree paths"
  else if md.statistics.isSome
      && !(md.statistics == some "mean" || md.statistics == some "quantile") then
    .error "`statistics` must be either `mean` or `quantile`"
  else if !md.statistics.isSome
      && (!md.smlt_path.isSome || !md.gsimlt_path.isSome) then
    .error "Both logic tree paths are required for non-statistical results"
  else if md.statistics == some "quantile" && !md.quantile_value.isSome then
    .error "quantile stastics results require a quantile value to be specified"
  else if !(md.statistics == some "quantile") && md.quantile_value.isSome then
    .error "Quantile value must be specified with quantile statistics"
  else if md.imt == some "SA" && !md.sa_period.isSome then
    .error "`sa_period` is required for IMT == `SA`"
  else if md.imt == some "SA" && !md.sa_damping.isSome then
    .error "`sa_damping` is required for IMT == `SA`"
  else
    .ok ()

/-- The `_ATTR_MAP` ordered dict of `writers.py`, paired with the metadata
values it maps: for each `(keyword, attribute)` entry, in source order, the
value `md.get(keyword)`. -/
def _ATTR_MAP_entries (md : Metadata) : List (String × Option String) :=
  [("statistics", md.statistics),
   ("quantileValue", md.quantile_value),
   ("sourceModelTreePath", md.smlt_path),
   ("gsimTreePath", md.gsimlt_path),
   ("IMT", md.imt),
   ("investigationTime", md.investigation_time),
   ("saPeriod", md.sa_period),
   ("saDamping", md.sa_damping),
   ("poE", md.poe),
   ("lon", md.lon),
   ("lat", md.lat)]

/-- `_set_metadata(element, metadata, _ATTR_MAP)`: the attributes set on the
element — one per present metadata key, in `_ATTR_MAP` order, transform `str`
(the identity on the rendered values carried here). -/
def _set_metadata (md : Metadata) : List (String × String) :=
  (_ATTR_MAP_entries md).filterMap (fun p => p.2.map (fun v => (p.1, v)))

/-- A 2D location with `x` = lon, `y` = lat (the `location` attribute of the
curve / GMF node objects). -/
structure Location where
  x : String
  y : String
deriving DecidableEq

/-- One hazard-curve datum: probabilities of exceedance plus a location. -/
structure HazardCurveDatum where
  poes : List String
  location : Location
deriving DecidableEq

/-- The outcome of a `serialize` call that can fail after its output sink was
opened: `with open(self.path, 'w')` runs before anything else, so
`sinkOpened` records that the sink was (unconditionally) opened before the
body ran. -/
structure SerializeOutcome where
  sinkOpened : Bool
  result : Except String XElem

/-- `HazardCurveXMLWriter`: path plus the keyword metadata dict. -/
structure HazardCurveXMLWriter where
  path : String
  metadata : Metadata

/-- `HazardCurveXMLWriter.__init__(path, **metadata)`: stores the fields and
immediately runs `_validate_hazard_metadata`; a raise means no writer. -/
def HazardCurveXMLWriter.init (path : String) (metadata : Metadata) :
    Except String HazardCurveXMLWriter :=
  (_validate_hazard_metadata metadata).map (fun _ => ⟨path, metadata⟩)

/-- The `<IMLs>` child: text is the space-joined rendering of `imls`. -/
def imlsElem (imls : List String) : XElem :=
  .mk "IMLs" [] (some (pyJoin " " imls)) []

/-- One `<hazardCurve>` child: the namespaced gml Point/pos pair rendering
`"lon lat"`, then the `<poEs>` child with space-joined poes. -/
def hazardCurveElem (hc : HazardCurveDatum) : XElem :=
  .mk "hazardCurve" [] none
    [.mk ("\x7b" ++ gml_ns ++ "\x7d" ++ "Point") [] none
      [.mk ("\x7b" ++ gml_ns ++ "\x7d" ++ "pos") []
        (some (hc.location.x ++ " " ++ hc.location.y)) []],
     .mk "poEs" [] (some (pyJoin " " hc.poes)) []]

/-- `HazardCurveXMLWriter.serialize(data)`: opens the sink, builds the
`<nrml><hazardCurves>` tree.  The lookup `self.metadata['imls']` raises
`KeyError` when the key is missing — after the sink is already open. -/
def HazardCurveXMLWriter.serialize (w : HazardCurveXMLWriter)
    (data : List HazardCurveDatum) : SerializeOutcome :=
  { sinkOpened := true
    result :=
      match w.metadata.imls with
      | none => .error "KeyError: imls"
      | some imls =>
          .ok (.mk "nrml" [] none
            [.mk "hazardCurves" (_set_metadata w.metadata) none
              (imlsElem imls :: data.map hazardCurveElem)]) }

/-- A GMF node: a ground-motion value and a location. -/
structure GMFNode where
  iml : String
  location : Location
deriving DecidableEq

/-- A ground-motion field: IMT tag, SA fields (read only when `imt = "SA"`),
and the node sequence yielded by iterating the object. -/
structure GMF where
  imt : String
  sa_period : String
  sa_damping : String
  nodes : List GMFNode
deriving DecidableEq

/-- A GMF set: investigation time plus the GMF sequence yielded by iteration. -/
structure GMFSet where
  investigation_time : String
  gmfs : List GMF
deriving DecidableEq

/-- One `<node>` element of a GMF. -/
def gmfNodeElem (n : GMFNode) : XElem :=
  .mk "node" [("iml", n.iml), ("lon", n.location.x), ("lat", n.location.y)]
    none []

/-- One `<gmf>` element: `IMT` attribute, `saPeriod`/`saDamping` only when
the IMT is `SA`, then the node children in input order.  This loop body is
textually identical in `EventBasedGMFXMLWriter.serialize` and
`ScenarioGMFXMLWriter.serialize`. -/
def gmfElem (g : GMF) : XElem :=
  .mk "gmf"
    (("IMT", g.imt) ::
      (if g.imt = "SA"
       then [("saPeriod", g.sa_period), ("saDamping", g.sa_damping)]
       else []))
    none (g.nodes.map gmfNodeElem)

/-- One `<gmfSet>` element with its `investigationTime` attribute. -/
def gmfSetElem (s : GMFSet) : XElem :=
  .mk "gmfSet" [("investigationTime", s.investigation_time)] none
    (s.gmfs.map gmfElem)

/-- `EventBasedGMFXMLWriter`: path plus the two logic-tree path arguments
(no metadata dict, no validation in `__init__`). -/
structure EventBasedGMFXMLWriter where
  path : String
  sm_lt_path : Option String
  gsim_lt_path : Option String

/-- `EventBasedGMFXMLWriter.__init__`: stores the three arguments; it cannot
fail. -/
def EventBasedGMFXMLWriter.init (path : String)
    (sm_lt_path gsim_lt_path : Option String) : EventBasedGMFXMLWriter :=
  ⟨path, sm_lt_path, gsim_lt_path⟩

/-- `EventBasedGMFXMLWriter.serialize(data)`: when both logic-tree paths are
non-`None` the sets go under a `<gmfCollection>` carrying the two path
attributes; otherwise they go directly under the `<nrml>` root. -/
def EventBasedGMFXMLWriter.serialize (w : EventBasedGMFXMLWriter)
    (data : List GMFSet) : XElem :=
  match w.sm_lt_path, w.gsim_lt_path with
  | some sm, some gsim =>
      .mk "nrml" [] none
        [.mk "gmfCollection"
          [("sourceModelTreePath", sm), ("gsimTreePath", gsim)] none
          (data.map gmfSetElem)]
  | some _, none => .mk "nrml" [] none (data.map gmfSetElem)
  | none, _ => .mk "nrml" [] none (data.map gmfSetElem)

/-- `ScenarioGMFXMLWriter`: only a path; no metadata, no validation. -/
structure ScenarioGMFXMLWriter where
  path : String

/-- `ScenarioGMFXMLWriter.serialize(data)`: always one bare `<gmfSet>` (no
attributes) directly under the root, holding the GMFs in input order. -/
def ScenarioGMFXMLWriter.serialize (_w : ScenarioGMFXMLWriter)
    (data : List GMF) : XElem :=
  .mk "nrml" [] none [.mk "gmfSet" [] none (data.map gmfElem)]

/-- A rupture record, as consumed by `SESXMLWriter.serialize`.  The mesh
grids are used when `is_from_fault_source` is true, the four corners
otherwise; all fields are carried so that either branch can read what it
needs. -/
structure Rupture where
  magnitude : String
  strike : String
  dip : String
  rake : String
  tectonic_region_type : String
  is_from_fault_source : Bool
  lons : List (List String)
  lats : List (List String)
  depths : List (List String)
  top_left_corner : String × String × String
  top_right_corner : String × String × String
  bottom_right_corner : String × String × String
  bottom_left_corner : String × String × String

/-- A stochastic event set: investigation time plus rupture sequence. -/
structure SES where
  investigation_time : String
  ruptures : List Rupture

/-- Python double indexing `g[i][j]`: an out-of-range index raises
`IndexError`, which is not caught anywhere in the writer and aborts the
whole `serialize` call. -/
def pyIndex2 (g : List (List String)) (i j : Nat) : Except String String :=
  match g[i]? with
  | none => .error "IndexError: list index out of range"
  | some row =>
      match row[j]? with
      | none => .error "IndexError: list index out of range"
      | some v => .ok v

/-- One `<node>` of the rupture mesh for cell `(i, j)`: the three lookups
`rupture.lons[i][j]`, `rupture.lats[i][j]`, `rupture.depths[i][j]` run in
source order and abort with `IndexError` if a grid does not cover the
cell. -/
def meshNodeElem (r : Rupture) (i j : Nat) : Except String XElem := do
  let lon ← pyIndex2 r.lons i j
  let lat ← pyIndex2 r.lats i j
  let depth ← pyIndex2 r.depths i j
  pure (XElem.mk "node"
    [("row", natRepr i), ("col", natRepr j),
     ("lon", lon), ("lat", lat), ("depth", depth)] none [])

/-- The `(row, col)` cells visited by the double `enumerate` loop of
`_create_rupture_mesh`, in visit order: the `lons` grid is walked row by
row, each row cell by cell. -/
def meshCells (lons : List (List String)) : List (Nat × Nat) :=
  lons.enum.flatMap (fun p => (p.2.enum).map (fun q => (p.1, q.1)))

/-- The node children emitted by the double loop: one element per visited
cell, failing exactly where the source's grid indexing raises. -/
def meshNodes (r : Rupture) : Except String (List XElem) :=
  (meshCells r.lons).mapM (fun ij => meshNodeElem r ij.1 ij.2)

/-- The value of the Python loop variable `j` after the double loop of
`_create_rupture_mesh`, when it was assigned at all: the last nonempty row
of the grid leaves `j` at its length minus one; `none` models the `NameError`
case where no inner iteration ever ran. -/
def finalColIdx : List (List String) → Option Nat
  | [] => none
  | row :: rest =>
      match finalColIdx rest with
      | some j => some j
      | none => if row.isEmpty then none else some (row.length - 1)

/-- `SESXMLWriter._create_rupture_mesh(rupture, rup_elem)`: runs the node
loop (which can abort with `IndexError` on a short `lats`/`depths` grid),
then sets `rows` from the final outer index and `cols` from the final inner
index; if either loop variable was never assigned, the `NameError` is
converted to `ValueError('Invalid rupture mesh')`. -/
def _create_rupture_mesh (r : Rupture) : Except String XElem := do
  let nodes ← meshNodes r
  match r.lons with
  | [] => .error "Invalid rupture mesh"
  | _ :: _ =>
      match finalColIdx r.lons with
      | none => .error "Invalid rupture mesh"
      | some j =>
          pure (XElem.mk "mesh"
            [("rows", natRepr r.lons.length), ("cols", natRepr (j + 1))]
            none nodes)

/-- The node element produced at an in-range cell `(i, j)` — the `.ok` value
of `meshNodeElem` once all three grids are known to cover the cell; used
only to state the emitted mesh (the writer itself indexes fallibly through
`pyIndex2`, and the C4 theorem proves the two agree under its shape
hypotheses). -/
def meshNodeElemOk (r : Rupture) (i j : Nat) : XElem :=
  XElem.mk "node"
    [("row", natRepr i), ("col", natRepr j),
     ("lon", (r.lons.getD i []).getD j ""),
     ("lat", (r.lats.getD i []).getD j ""),
     ("depth", (r.depths.getD i []).getD j "")] none []

/-- `SESXMLWriter._create_planar_surface(rupture, rup_elem)`: the four corner
elements, in the fixed order top-left, top-right, bottom-right, bottom-left. -/
def _create_planar_surface (r : Rupture) : XElem :=
  .mk "planarSurface" [] none
    [.mk "topLeft"
       [("lon", r.top_left_corner.1), ("lat", r.top_left_corner.2.1),
        ("depth", r.top_left_corner.2.2)] none [],
     .mk "topRight"
       [("lon", r.top_right_corner.1), ("lat", r.top_right_corner.2.1),
        ("depth", r.top_right_corner.2.2)] none [],
     .mk "bottomRight"
       [("lon", r.bottom_right_corner.1), ("lat", r.bottom_right_corner.2.1),
        ("depth", r.bottom_right_corner.2.2)] none [],
     .mk "bottomLeft"
       [("lon", r.bottom_left_corner.1), ("lat", r.bottom_left_corner.2.1),
        ("depth", r.bottom_left_corner.2.2)] none []]

/-- One `<rupture>` element: the five scalar attributes, then either the mesh
(fault-source ruptures; can fail) or the planar surface. -/
def ruptureElem (r : Rupture) : Except String XElem :=
  (if r.is_from_fault_source
   then (_create_rupture_mesh r).map (fun m => [m])
   else .ok [_create_planar_surface r]).map
    (fun geom =>
      .mk "rupture"
        [("magnitude", r.magnitude), ("strike", r.strike), ("dip", r.dip),
         ("rake", r.rake), ("tectonicRegion", r.tectonic_region_type)]
        none geom)

/-- One `<stochasticEventSet>` element; a geometry failure inside any of its
ruptures aborts it. -/
def sesElem (s : SES) : Except String XElem :=
  (s.ruptures.mapM ruptureElem).map
    (fun rs =>
      .mk "stochasticEventSet"
        [("investigationTime", s.investigation_time)] none rs)

/-- `SESXMLWriter`: path plus the two logic-tree path arguments (no metadata
dict, no validation in `__init__`). -/
structure SESXMLWriter where
  path : String
  sm_lt_path : Option String
  gsim_lt_path : Option String

/-- `SESXMLWriter.__init__`: stores the three arguments; it cannot fail. -/
def SESXMLWriter.init (path : String)
    (sm_lt_path gsim_lt_path : Option String) : SESXMLWriter :=
  ⟨path, sm_lt_path, gsim_lt_path⟩

/-- `SESXMLWriter.serialize(data)`: same wrap-or-flatten rule as the
event-based GMF writer, keyed on both logic-tree paths being non-`None`;
the body raises `ValueError` on an invalid rupture mesh. -/
def SESXMLWriter.serialize (w : SESXMLWriter) (data : List SES) :
    Except String XElem :=
  (data.mapM sesElem).map
    (fun sets =>
      match w.sm_lt_path, w.gsim_lt_path with
      | some sm, some gsim =>
          .mk "nrml" [] none
            [.mk "stochasticEventSetCollection"
              [("sourceModelTreePath", sm), ("gsimTreePath", gsim)]
              none sets]
      | some _, none => .mk "nrml" [] none sets
      | none, _ => .mk "nrml" [] none sets)

/-- `HazardMapXMLWriter`: path plus the keyword metadata dict. -/
structure HazardMapXMLWriter where
  path : String
  metadata : Metadata

/-- `HazardMapXMLWriter.__init__(path, **metadata)`: stores the fields and
immediately runs `_validate_hazard_metadata`. -/
def HazardMapXMLWriter.init (path : String) (metadata : Metadata) :
    Except String HazardMapXMLWriter :=
  (_validate_hazard_metadata metadata).map (fun _ => ⟨path, metadata⟩)

/-- One `<node>` of a hazard map, from a `(lon, lat, iml)` triple. -/
def hazardMapNodeElem (t : String × String × String) : XElem :=
  .mk "node" [("lon", t.1), ("lat", t.2.1), ("iml", t.2.2)] none []

/-- `HazardMapXMLWriter.serialize(data)`: one metadata-bearing `<hazardMap>`
container with a flat `<node>` per triple, in input order. -/
def HazardMapXMLWriter.serialize (w : HazardMapXMLWriter)
    (data : List (String × String × String)) : XElem :=
  .mk "nrml" [] none
    [.mk "hazardMap" (_set_metadata w.metadata) none
      (data.map hazardMapNodeElem)]

/-- An N-dimensional numeric matrix (numpy array): its shape and its cell
values flattened in C (row-major) order, values carried as renderings. -/
structure NDMatrix where
  shape : List Nat
  flat : List String
deriving DecidableEq

/-- A matrix is well formed when it has exactly one flat value per cell of
its shape (numpy guarantees this for every ndarray). -/
def NDMatrix.wf (m : NDMatrix) : Prop := m.flat.length = m.shape.prod

/-- All multi-indices of a shape, in row-major (lexicographic) order: the
first axis varies slowest. -/
def allIndices : List Nat → List (List Nat)
  | [] => [[]]
  | d :: ds => (List.range d).flatMap (fun i => (allIndices ds).map (i :: ·))

/-- Modelled from the spec: `nrmllib.utils.ndenumerate` (the `utils` module is
not under the available sources) — the numeric table enumerator that, given an
N-dimensional matrix, yields `(index-tuple, value)` pairs in the canonical
row-major order, covering every cell exactly once. -/
def ndenumerate (m : NDMatrix) : List (List Nat × String) :=
  (allIndices m.shape).zip m.flat

/-- One disaggregation result: matrix, axis labels, poe, iml. -/
structure DisaggResult where
  matrix : NDMatrix
  dim_labels : List String
  poe : String
  iml : String
deriving DecidableEq

/-- `DisaggXMLWriter.DIM_LABEL_TO_BIN_EDGE_MAP.get(label)`: dimension label
to the metadata keyword holding its bin edges (`none` for a key outside the
dict, as `dict.get` returns `None`). -/
def DIM_LABEL_TO_BIN_EDGE_MAP : String → Option String
  | "Mag" => some "mag_bin_edges"
  | "Dist" => some "dist_bin_edges"
  | "Lon" => some "lon_bin_edges"
  | "Lat" => some "lat_bin_edges"
  | "Eps" => some "eps_bin_edges"
  | "TRT" => some "tectonic_region_types"
  | _ => none

/-- `self.metadata.get(bin_edge_attr)` where `bin_edge_attr` may itself be
`None` (a `dict.get` with key `None` finds nothing in a string-keyed dict). -/
def Metadata.getBinEdges (md : Metadata) : Option String → Option (List String)
  | some "mag_bin_edges" => md.mag_bin_edges
  | some "dist_bin_edges" => md.dist_bin_edges
  | some "lon_bin_edges" => md.lon_bin_edges
  | some "lat_bin_edges" => md.lat_bin_edges
  | some "eps_bin_edges" => md.eps_bin_edges
  | some "tectonic_region_types" => md.tectonic_region_types
  | some _ => none
  | none => none

/-- Python's `'%s' % v` for the (possibly `None`) bin-edge keyword used in
the assertion message. -/
def pyStrOptKey : Option String → String
  | none => "None"
  | some s => s

/-- The message of the failed bin-edge assertion:
`"Writer is missing '%s' metadata" % bin_edge_attr`. -/
def missingBinEdgesMsg (attr : Option String) : String :=
  "Writer is missing '" ++ pyStrOptKey attr ++ "' metadata"

/-- The per-result bin-edge completeness assertion of
`DisaggXMLWriter.serialize`: each label of `dim_labels`, in order, must map
to a metadata key that is present; the first failure raises with a message
naming the (possibly `None`) keyword. -/
def checkBinEdges (md : Metadata) : List String → Except String Unit
  | [] => .ok ()
  | label :: rest =>
      if md.getBinEdges (DIM_LABEL_TO_BIN_EDGE_MAP label) = none
      then .error (missingBinEdgesMsg (DIM_LABEL_TO_BIN_EDGE_MAP label))
      else checkBinEdges md rest

/-- One `<prob>` cell of a disaggregation matrix: comma-joined multi-index
and the cell value. -/
def probElem (p : List Nat × String) : XElem :=
  .mk "prob"
    [("index", pyJoin "," (p.1.map natRepr)), ("value", p.2)] none []

/-- One `<disaggMatrix>` element (after its bin-edge assertion passed):
`type` = comma-joined labels, `dims` = comma-joined shape, `poE`, `iml`, and
one `<prob>` child per `ndenumerate` pair. -/
def disaggMatrixElem (r : DisaggResult) : XElem :=
  .mk "disaggMatrix"
    [("type", pyJoin "," r.dim_labels),
     ("dims", pyJoin "," (r.matrix.shape.map natRepr)),
     ("poE", r.poe), ("iml", r.iml)]
    none ((ndenumerate r.matrix).map probElem)

/-- The `BIN_EDGE_ATTR_MAP` attributes on the `<disaggMatrices>` container:
one per present bin-edge metadata key, in source order, transformed by
`', '.join(str(x) for x in val)`. -/
def binEdgeAttrs (md : Metadata) : List (String × String) :=
  [("magBinEdges", md.mag_bin_edges),
   ("distBinEdges", md.dist_bin_edges),
   ("lonBinEdges", md.lon_bin_edges),
   ("latBinEdges", md.lat_bin_edges),
   ("epsBinEdges", md.eps_bin_edges),
   ("tectonicRegionTypes", md.tectonic_region_types)].filterMap
    (fun p => p.2.map (fun v => (p.1, pyJoin ", " v)))

/-- `DisaggXMLWriter`: path plus the keyword metadata dict. -/
structure DisaggXMLWriter where
  path : String
  metadata : Metadata

/-- `DisaggXMLWriter.__init__(path, **metadata)`: stores the fields and
immediately runs `_validate_hazard_metadata` (the bin-edge fields are not
inspected here). -/
def DisaggXMLWriter.init (path : String) (metadata : Metadata) :
    Except String DisaggXMLWriter :=
  (_validate_hazard_metadata metadata).map (fun _ => ⟨path, metadata⟩)

/-- `DisaggXMLWriter.serialize(data)`: the `<disaggMatrices>` container with
scalar and bin-edge attributes, then per result the bin-edge assertion
followed by its `<disaggMatrix>` element. -/
def DisaggXMLWriter.serialize (w : DisaggXMLWriter) (data : List DisaggResult) :
    Except String XElem :=
  (data.mapM (fun (r : DisaggResult) => do
      checkBinEdges w.metadata r.dim_labels
      pure (disaggMatrixElem r))).map
    (fun ms =>
      .mk "nrml" [] none
        [.mk "disaggMatrices"
          (_set_metadata w.metadata ++ binEdgeAttrs w.metadata) none ms])

/-! ## Concrete records used by the claim theorems -/

/-- Scenario A metadata: `imt='PGA'`, `smlt_path='b1'`, `gsimlt_path='g1'`,
`investigation_time=50`, `imls=[0.1, 0.2, 0.3]` (values carried as their
`str` renderings). -/
def scenarioA_md : Metadata :=
  { imt := some "PGA", smlt_path := some "b1", gsimlt_path := some "g1",
    investigation_time := some "50", imls := some ["0.1", "0.2", "0.3"] }

/-- Scenario A datum: one curve at `(lon=1.0, lat=2.0)` with
`poes=[0.9, 0.5, 0.1]`. -/
def scenarioA_curve : HazardCurveDatum :=
  { poes := ["0.9", "0.5", "0.1"], location := { x := "1.0", y := "2.0" } }

/-! ## Claims -/

/-- C3: for Scenario A — a `HazardCurveXMLWriter` constructed with
`imt='PGA'`, `smlt_path='b1'`, `gsimlt_path='g1'`, `investigation_time=50`,
`imls=[0.1,0.2,0.3]`, serializing one curve at `(1.0, 2.0)` with
`poes=[0.9,0.5,0.1]` — construction succeeds and the emitted document holds a
`hazardCurves` container carrying exactly the four mapped attributes
`IMT='PGA'`, `sourceModelTreePath='b1'`, `gsimTreePath='g1'`,
`investigationTime='50'`, one `IMLs` child with text `"0.1 0.2 0.3"`, and one
`hazardCurve` child whose position text is `"1.0 2.0"` and whose `poEs` text
is `"0.9 0.5 0.1"`. -/
theorem spec_C3 :
    HazardCurveXMLWriter.init "curves.xml" scenarioA_md =
      .ok ⟨"curves.xml", scenarioA_md⟩
    ∧ (HazardCurveXMLWriter.serialize ⟨"curves.xml", scenarioA_md⟩
        [scenarioA_curve]).result =
      .ok (XElem.mk "nrml" [] none
        [XElem.mk "hazardCurves"
          [("sourceModelTreePath", "b1"), ("gsimTreePath", "g1"),
           ("IMT", "PGA"), ("investigationTime", "50")]
          none
          [XElem.mk "IMLs" [] (some "0.1 0.2 0.3") [],
           XElem.mk "hazardCurve" [] none
             [XElem.mk ("\x7b" ++ gml_ns ++ "\x7d" ++ "Point") [] none
               [XElem.mk ("\x7b" ++ gml_ns ++ "\x7d" ++ "pos") []
                 (some "1.0 2.0") []],
              XElem.mk "poEs" [] (some "0.9 0.5 0.1") []]]]) :=
  ⟨rfl, rfl⟩

/-- C2 counterexample: the claim fails for the writers that take no metadata
record.  The configuration "`smlt_path` set, `gsimlt_path` absent" is
rejected by the shared validator, yet `EventBasedGMFXMLWriter` and
`SESXMLWriter` constructed with exactly that pair of logic-tree paths
validate nothing: construction succeeds and `serialize` is reachable and
produces a document. -/
theorem spec_C2_counterexample :
    _validate_hazard_metadata { smlt_path := some "b1" } =
      .error "Both logic tree paths are required for non-statistical results"
    ∧ (EventBasedGMFXMLWriter.init "gmf.xml" (some "b1") none).serialize [] =
        XElem.mk "nrml" [] none []
    ∧ SESXMLWriter.serialize (SESXMLWriter.init "ses.xml" (some "b1") none) [] =
        .ok (XElem.mk "nrml" [] none [])
    ∧ ScenarioGMFXMLWriter.serialize ⟨"scenario.xml"⟩ [] =
        XElem.mk "nrml" [] none [XElem.mk "gmfSet" [] none []] :=
  ⟨rfl, rfl, rfl, rfl⟩

/-- C2 (amended): metadata validation runs at construction time, before any
data records are seen, for the three writers that accept a metadata record —
`HazardCurveXMLWriter`, `HazardMapXMLWriter` and `DisaggXMLWriter`: any
metadata the shared validator rejects makes construction fail with that
validation error, so `serialize` is never reachable on such a writer.  (The
other three writers accept no metadata record and validate nothing at
construction.) -/
theorem spec_C2_amended (p : String) (md : Metadata) (e : String)
    (h : _validate_hazard_metadata md = .error e) :
    HazardCurveXMLWriter.init p md = .error e
    ∧ HazardMapXMLWriter.init p md = .error e
    ∧ DisaggXMLWriter.init p md = .error e := by
  refine ⟨?_, ?_, ?_⟩ <;>
    simp [HazardCurveXMLWriter.init, HazardMapXMLWriter.init,
      DisaggXMLWriter.init, h, Except.map]

/-- Witness for C2 (amended): Scenario B — both `statistics='mean'` and
`smlt_path='b1'` set makes all three metadata-validating constructors fail
immediately. -/
theorem spec_C2_amended_witness :
    HazardCurveXMLWriter.init "out.xml"
        { statistics := some "mean", smlt_path := some "b1" } =
      .error "Cannot specify both `statistics` and logic tree paths"
    ∧ HazardMapXMLWriter.init "out.xml"
        { statistics := some "mean", smlt_path := some "b1" } =
      .error "Cannot specify both `statistics` and logic tree paths"
    ∧ DisaggXMLWriter.init "out.xml"
        { statistics := some "mean", smlt_path := some "b1" } =
      .error "Cannot specify both `statistics` and logic tree paths" :=
  spec_C2_amended "out.xml" { statistics := some "mean", smlt_path := some "b1" }
    "Cannot specify both `statistics` and logic tree paths" rfl

/-- C9: the shared validator never inspects `imls`, so a
`HazardCurveXMLWriter` constructed from validator-passing metadata without
the `imls` key is built successfully; the missing field is only detected
inside `serialize`, which fails with a key-lookup error after the output
sink has already been opened for writing. -/
theorem spec_C9 (p : String) (md : Metadata)
    (hok : _validate_hazard_metadata md = .ok ())
    (hnoimls : md.imls = none) (data : List HazardCurveDatum) :
    HazardCurveXMLWriter.init p md = .ok ⟨p, md⟩
    ∧ (HazardCurveXMLWriter.serialize ⟨p, md⟩ data).sinkOpened = true
    ∧ (HazardCurveXMLWriter.serialize ⟨p, md⟩ data).result =
        .error "KeyError: imls" := by
  refine ⟨?_, rfl, ?_⟩
  · simp [HazardCurveXMLWriter.init, hok, Except.map]
  · simp [HazardCurveXMLWriter.serialize, hnoimls]

/-- Witness for C9: mean statistics with no `imls` passes validation; the
writer is constructed, and serializing fails with the key error while the
sink is open. -/
theorem spec_C9_witness :
    HazardCurveXMLWriter.init "curves.xml" { statistics := some "mean" } =
      .ok ⟨"curves.xml", { statistics := some "mean" }⟩
    ∧ (HazardCurveXMLWriter.serialize
        ⟨"curves.xml", { statistics := some "mean" }⟩ []).sinkOpened = true
    ∧ (HazardCurveXMLWriter.serialize
        ⟨"curves.xml", { statistics := some "mean" }⟩ []).result =
        .error "KeyError: imls" :=
  spec_C9 "curves.xml" { statistics := some "mean" } rfl rfl []

/-- C10: a dimension label outside the vocabulary `{Mag, Dist, Lon, Lat,
Eps, TRT}` maps to no bin-edge keyword, so `DisaggXMLWriter.serialize` fails
through the very same missing-bin-edges assertion (its message rendering the
absent keyword, i.e. Python's `None`, as `'None'`), not through any separate
label-vocabulary check. -/
theorem spec_C10 (p : String) (md : Metadata) (r : DisaggResult)
    (label : String) (rest : List String)
    (hlabels : r.dim_labels = label :: rest)
    (hunknown : DIM_LABEL_TO_BIN_EDGE_MAP label = none) :
    DisaggXMLWriter.serialize ⟨p, md⟩ [r] =
      .error (missingBinEdgesMsg none)
    ∧ missingBinEdgesMsg none = "Writer is missing 'None' metadata" := by
  refine ⟨?_, rfl⟩
  simp [DisaggXMLWriter.serialize, List.mapM, List.mapM.loop, hlabels,
    checkBinEdges, hunknown, Metadata.getBinEdges, Except.map]

/-- Witness for C10: a result labelled `["Foo"]` makes `serialize` fail with
the missing-bin-edges message naming `None`. -/
theorem spec_C10_witness :
    DisaggXMLWriter.serialize ⟨"disagg.xml", {}⟩
        [{ matrix := { shape := [1], flat := ["0.25"] },
           dim_labels := ["Foo"], poe := "0.1", iml := "0.5" }] =
      .error (missingBinEdgesMsg none)
    ∧ missingBinEdgesMsg none = "Writer is missing 'None' metadata" :=
  spec_C10 "disagg.xml" {}
    { matrix := { shape := [1], flat := ["0.25"] },
      dim_labels := ["Foo"], poe := "0.1", iml := "0.5" }
    "Foo" [] rfl rfl

/-- If some label of `labels` has no bin edges in the metadata, the
assertion loop fails, and its message names a label's (possibly `None`)
bin-edge keyword — the first failing one. -/
theorem checkBinEdges_error (md : Metadata) :
    ∀ labels : List String,
      (∃ l ∈ labels, md.getBinEdges (DIM_LABEL_TO_BIN_EDGE_MAP l) = none) →
      ∃ b ∈ labels,
        md.getBinEdges (DIM_LABEL_TO_BIN_EDGE_MAP b) = none ∧
        checkBinEdges md labels =
          .error (missingBinEdgesMsg (DIM_LABEL_TO_BIN_EDGE_MAP b)) := by
  intro labels
  induction labels with
  | nil => rintro ⟨l, hl, _⟩; cases hl
  | cons a rest ih =>
    rintro ⟨l, hl, hnone⟩
    by_cases ha : md.getBinEdges (DIM_LABEL_TO_BIN_EDGE_MAP a) = none
    · exact ⟨a, List.mem_cons_self a rest, ha, by simp [checkBinEdges, ha]⟩
    · have hl' : l ∈ rest := by
        rcases List.mem_cons.mp hl with h | h
        · exact absurd (h ▸ hnone) ha
        · exact h
      obtain ⟨b, hb, hbnone, hcheck⟩ := ih ⟨l, hl', hnone⟩
      exact ⟨b, List.mem_cons_of_mem _ hb, hbnone,
        by simp [checkBinEdges, ha, hcheck]⟩

/-- C6: the bin-edge completeness check of `DisaggXMLWriter` runs per result
at `serialize` time — construction only runs the shared validator and
succeeds even when bin edges are missing — and a result with a label whose
bin-edge field is absent makes `serialize` fail with the assertion message
naming that absent field. -/
theorem spec_C6 (p : String) (md : Metadata) (r : DisaggResult)
    (hok : _validate_hazard_metadata md = .ok ())
    (hmissing : ∃ l ∈ r.dim_labels,
      md.getBinEdges (DIM_LABEL_TO_BIN_EDGE_MAP l) = none) :
    DisaggXMLWriter.init p md = .ok ⟨p, md⟩
    ∧ ∃ b ∈ r.dim_labels,
        md.getBinEdges (DIM_LABEL_TO_BIN_EDGE_MAP b) = none ∧
        DisaggXMLWriter.serialize ⟨p, md⟩ [r] =
          .error (missingBinEdgesMsg (DIM_LABEL_TO_BIN_EDGE_MAP b)) := by
  obtain ⟨b, hb, hbnone, hcheck⟩ := checkBinEdges_error md r.dim_labels hmissing
  refine ⟨by simp [DisaggXMLWriter.init, hok, Except.map], b, hb, hbnone, ?_⟩
  simp [DisaggXMLWriter.serialize, List.mapM, List.mapM.loop, hcheck,
    Except.map]

/-- Scenario D metadata: mean statistics, magnitude bin edges supplied, no
distance bin edges. -/
def scenarioD_md : Metadata :=
  { statistics := some "mean", mag_bin_edges := some ["5.0", "6.0"] }

/-- Scenario D result: a `Mag`-`Dist` histogram. -/
def scenarioD_result : DisaggResult :=
  { matrix := { shape := [2], flat := ["0.1", "0.2"] },
    dim_labels := ["Mag", "Dist"], poe := "0.1", iml := "0.5" }

/-- Witness for C6: Scenario D — `dim_labels=['Mag','Dist']` with no
`dist_bin_edges` builds the writer fine but fails `serialize` with a message
naming `dist_bin_edges`. -/
theorem spec_C6_witness :
    (DisaggXMLWriter.init "disagg.xml" scenarioD_md =
        .ok ⟨"disagg.xml", scenarioD_md⟩
      ∧ ∃ b ∈ scenarioD_result.dim_labels,
          scenarioD_md.getBinEdges (DIM_LABEL_TO_BIN_EDGE_MAP b) = none ∧
          DisaggXMLWriter.serialize ⟨"disagg.xml", scenarioD_md⟩
              [scenarioD_result] =
            .error (missingBinEdgesMsg (DIM_LABEL_TO_BIN_EDGE_MAP b)))
    ∧ DisaggXMLWriter.serialize ⟨"disagg.xml", scenarioD_md⟩
        [scenarioD_result] =
      .error "Writer is missing 'dist_bin_edges' metadata" :=
  ⟨spec_C6 "disagg.xml" scenarioD_md scenarioD_result rfl
      ⟨"Dist", by simp [scenarioD_result], rfl⟩,
    rfl⟩

/-- C5: `EventBasedGMFXMLWriter` and `SESXMLWriter` wrap their sets in a
collection element carrying both logic-tree-path attributes exactly when
both constructor paths are non-absent, and otherwise emit the set elements
directly under the root; `ScenarioGMFXMLWriter` always emits one flat
`gmfSet` under the root and never a collection wrapper. -/
theorem spec_C5 (p : String) (sm gsim : Option String) (sets : List GMFSet)
    (sesData : List SES) (scen : List GMF) :
    ((EventBasedGMFXMLWriter.init p sm gsim).serialize sets).children =
      (match sm, gsim with
       | some a, some b =>
           [XElem.mk "gmfCollection"
             [("sourceModelTreePath", a), ("gsimTreePath", b)] none
             (sets.map gmfSetElem)]
       | _, _ => sets.map gmfSetElem)
    ∧ (SESXMLWriter.serialize (SESXMLWriter.init p sm gsim) sesData).map
        XElem.children =
      (sesData.mapM sesElem).map (fun ss =>
        match sm, gsim with
        | some a, some b =>
            [XElem.mk "stochasticEventSetCollection"
              [("sourceModelTreePath", a), ("gsimTreePath", b)] none ss]
        | _, _ => ss)
    ∧ (ScenarioGMFXMLWriter.serialize ⟨p⟩ scen).children =
        [XElem.mk "gmfSet" [] none (scen.map gmfElem)] := by
  refine ⟨?_, ?_, rfl⟩
  · cases sm <;> cases gsim <;> rfl
  · cases sm <;> cases gsim <;>
      rcases h : sesData.mapM sesElem with e | ss <;>
        simp only [SESXMLWriter.serialize, SESXMLWriter.init, h] <;> rfl

/-- C8: every writer emits its child elements in input iteration order — the
tree children are the `List.map` image of the input sequence (curves; the
top-level GMF sets of `EventBasedGMFXMLWriter.serialize` in both the wrapped
and the flattened branch; GMFs and GMF nodes; the top-level stochastic event
sets of `SESXMLWriter.serialize` in both branches, via the order-preserving
`mapM`; rupture elements within an event set; hazard-map triples) with no
grouping, sorting or reordering. -/
theorem spec_C8 (p : String) (md : Metadata) (imlsv : List String)
    (curves : List HazardCurveDatum) (s : GMFSet) (g : GMF)
    (scen : List GMF) (mapData : List (String × String × String))
    (es : SES) (rs : List XElem) (sm gsim : Option String)
    (sets : List GMFSet) (sesData : List SES) (sesElems : List XElem) :
    (md.imls = some imlsv →
      (HazardCurveXMLWriter.serialize ⟨p, md⟩ curves).result =
        .ok (XElem.mk "nrml" [] none
          [XElem.mk "hazardCurves" (_set_metadata md) none
            (imlsElem imlsv :: curves.map hazardCurveElem)]))
    ∧ ((EventBasedGMFXMLWriter.init p sm gsim).serialize sets).children =
        (match sm, gsim with
         | some a, some b =>
             [XElem.mk "gmfCollection"
               [("sourceModelTreePath", a), ("gsimTreePath", b)] none
               (sets.map gmfSetElem)]
         | _, _ => sets.map gmfSetElem)
    ∧ (gmfSetElem s).children = s.gmfs.map gmfElem
    ∧ (gmfElem g).children = g.nodes.map gmfNodeElem
    ∧ (ScenarioGMFXMLWriter.serialize ⟨p⟩ scen).children =
        [XElem.mk "gmfSet" [] none (scen.map gmfElem)]
    ∧ (HazardMapXMLWriter.serialize ⟨p, md⟩ mapData).children =
        [XElem.mk "hazardMap" (_set_metadata md) none
          (mapData.map hazardMapNodeElem)]
    ∧ (sesData.mapM sesElem = .ok sesElems →
        SESXMLWriter.serialize (SESXMLWriter.init p sm gsim) sesData =
          .ok (XElem.mk "nrml" [] none
            (match sm, gsim with
             | some a, some b =>
                 [XElem.mk "stochasticEventSetCollection"
                   [("sourceModelTreePath", a), ("gsimTreePath", b)] none
                   sesElems]
             | _, _ => sesElems)))
    ∧ (es.ruptures.mapM ruptureElem = .ok rs →
        sesElem es = .ok (XElem.mk "stochasticEventSet"
          [("investigationTime", es.investigation_time)] none rs)) := by
  refine ⟨?_, ?_, rfl, rfl, rfl, rfl, ?_, ?_⟩
  · intro h; simp [HazardCurveXMLWriter.serialize, h]
  · cases sm <;> cases gsim <;> rfl
  · intro h
    cases sm <;> cases gsim <;>
      simp only [SESXMLWriter.serialize, SESXMLWriter.init, h] <;> rfl
  · intro h; simp only [sesElem, h]; rfl

/-- Witness for C8: two curves serialize to two `hazardCurve` children in
input order, two GMF sets land under the root in input order, an empty SES
collection serializes to an empty root, and an empty rupture list gives an
empty event-set element. -/
theorem spec_C8_witness :
    (HazardCurveXMLWriter.serialize ⟨"curves.xml", scenarioA_md⟩
        [scenarioA_curve, scenarioA_curve]).result =
      .ok (XElem.mk "nrml" [] none
        [XElem.mk "hazardCurves" (_set_metadata scenarioA_md) none
          (imlsElem ["0.1", "0.2", "0.3"] ::
            [scenarioA_curve, scenarioA_curve].map hazardCurveElem)])
    ∧ ((EventBasedGMFXMLWriter.init "gmf.xml" none none).serialize
          [⟨"10", []⟩, ⟨"20", []⟩]).children =
        [gmfSetElem ⟨"10", []⟩, gmfSetElem ⟨"20", []⟩]
    ∧ SESXMLWriter.serialize (SESXMLWriter.init "ses.xml" none none) [] =
        .ok (XElem.mk "nrml" [] none [])
    ∧ sesElem ⟨"50", []⟩ =
      .ok (XElem.mk "stochasticEventSet" [("investigationTime", "50")]
        none []) :=
  ⟨(spec_C8 "curves.xml" scenarioA_md ["0.1", "0.2", "0.3"]
      [scenarioA_curve, scenarioA_curve] ⟨"50", []⟩ ⟨"PGA", "", "", []⟩
      [] [] ⟨"50", []⟩ [] none none [⟨"10", []⟩, ⟨"20", []⟩] [] []).1 rfl,
   (spec_C8 "gmf.xml" scenarioA_md ["0.1", "0.2", "0.3"]
      [scenarioA_curve, scenarioA_curve] ⟨"50", []⟩ ⟨"PGA", "", "", []⟩
      [] [] ⟨"50", []⟩ [] none none [⟨"10", []⟩, ⟨"20", []⟩] [] []).2.1,
   (spec_C8 "ses.xml" scenarioA_md ["0.1", "0.2", "0.3"]
      [scenarioA_curve, scenarioA_curve] ⟨"50", []⟩ ⟨"PGA", "", "", []⟩
      [] [] ⟨"50", []⟩ [] none none [⟨"10", []⟩, ⟨"20", []⟩] []
      []).2.2.2.2.2.2.1 rfl,
   (spec_C8 "ses.xml" scenarioA_md ["0.1", "0.2", "0.3"]
      [scenarioA_curve, scenarioA_curve] ⟨"50", []⟩ ⟨"PGA", "", "", []⟩
      [] [] ⟨"50", []⟩ [] none none [⟨"10", []⟩, ⟨"20", []⟩] []
      []).2.2.2.2.2.2.2 rfl⟩

/-- The "exactly one" clause of the claimed validation contract: either
`statistics` is mean/quantile with both logic-tree paths absent, or both
paths are set with `statistics` absent — and not the other one. -/
def statsPathsExactlyOne (md : Metadata) : Prop :=
  ((md.statistics = some "mean" ∨ md.statistics = some "quantile")
      ∧ md.smlt_path = none ∧ md.gsimlt_path = none
    ∧ ¬(md.smlt_path ≠ none ∧ md.gsimlt_path ≠ none ∧ md.statistics = none))
  ∨ ((md.smlt_path ≠ none ∧ md.gsimlt_path ≠ none ∧ md.statistics = none)
    ∧ ¬((md.statistics = some "mean" ∨ md.statistics = some "quantile")
      ∧ md.smlt_path = none ∧ md.gsimlt_path = none))

/-- The quantile clause of the claimed validation contract:
`quantile_value` is present exactly when `statistics == 'quantile'`. -/
def quantileValueIff (md : Metadata) : Prop :=
  md.quantile_value ≠ none ↔ md.statistics = some "quantile"

/-- The SA clause as the claim states it (a biconditional): `sa_period` and
`sa_damping` are both present exactly when `imt == 'SA'`. -/
def saFieldsIffSA (md : Metadata) : Prop :=
  (md.sa_period ≠ none ∧ md.sa_damping ≠ none) ↔ md.imt = some "SA"

/-- The SA clause as the code actually checks it (one direction only):
`imt == 'SA'` requires both SA fields. -/
def saFieldsIfSA (md : Metadata) : Prop :=
  md.imt = some "SA" → (md.sa_period ≠ none ∧ md.sa_damping ≠ none)

/-- C1 counterexample: the claim's biconditional SA clause does not hold —
metadata with `statistics='mean'`, `imt='PGA'` and both `sa_period` and
`sa_damping` present passes `_validate_hazard_metadata`, although the claim
(SA fields present with `imt != 'SA'` makes validation fail) says it must be
rejected. -/
theorem spec_C1_counterexample :
    _validate_hazard_metadata
        { statistics := some "mean", imt := some "PGA",
          sa_period := some "0.05", sa_damping := some "5" } = .ok ()
    ∧ ¬(statsPathsExactlyOne
          { statistics := some "mean", imt := some "PGA",
            sa_period := some "0.05", sa_damping := some "5" }
        ∧ quantileValueIff
          { statistics := some "mean", imt := some "PGA",
            sa_period := some "0.05", sa_damping := some "5" }
        ∧ saFieldsIffSA
          { statistics := some "mean", imt := some "PGA",
            sa_period := some "0.05", sa_damping := some "5" }) := by
  refine ⟨rfl, fun h => ?_⟩
  have hsa := h.2.2
  unfold saFieldsIffSA at hsa
  simp at hsa

/-- C1 (amended): `_validate_hazard_metadata` succeeds iff exactly one of
{`statistics` set to mean/quantile with both logic-tree paths absent, both
paths set with `statistics` absent} holds, `quantile_value` is present
exactly when `statistics == 'quantile'`, and — if `imt == 'SA'` — both
`sa_period` and `sa_damping` are present (SA fields present with a different
`imt` are accepted, not rejected). -/
theorem spec_C1_amended (md : Metadata) :
    _validate_hazard_metadata md = .ok () ↔
      (statsPathsExactlyOne md ∧ quantileValueIff md ∧ saFieldsIfSA md) := by
  obtain ⟨stat, qv, smlt, gsimlt, imt, it, sap, sad, poe, lon, lat,
    imls, m1, m2, m3, m4, m5, m6⟩ := md
  unfold _validate_hazard_metadata statsPathsExactlyOne quantileValueIff
    saFieldsIfSA
  cases stat <;> cases imt <;>
    simp_all [Option.isSome_iff_ne_none] <;>
    (try (split_ifs <;> simp_all)) <;>
    tauto

/-- If every row of the grid is empty, the inner loop variable is never
assigned. -/
theorem finalColIdx_of_zero :
    ∀ l : List (List String), (∀ row ∈ l, row.length = 0) →
      finalColIdx l = none := by
  intro l
  induction l with
  | nil => intro _; rfl
  | cons row rest ih =>
    intro h
    have hrow : row.length = 0 := h row (List.mem_cons_self _ _)
    have hrest := ih (fun q hq => h q (List.mem_cons_of_mem _ hq))
    simp [finalColIdx, hrest, List.isEmpty_iff, List.length_eq_zero.mp hrow]

/-- On a nonempty grid of uniform positive row length `c`, the inner loop
variable ends at `c - 1`. -/
theorem finalColIdx_of_pos (c : Nat) (hc : 0 < c) :
    ∀ l : List (List String), (∀ row ∈ l, row.length = c) → l ≠ [] →
      finalColIdx l = some (c - 1) := by
  intro l
  induction l with
  | nil => intro _ h; exact absurd rfl h
  | cons row rest ih =>
    intro h _
    have hrow : row.length = c := h row (List.mem_cons_self _ _)
    have hempty : row.isEmpty = false := by
      rcases hr : (row : List String) with _ | _
      · rw [hr] at hrow; simp at hrow; omega
      · rfl
    cases rest with
    | nil =>
      show (match finalColIdx [] with
        | some j => some j
        | none => if row.isEmpty then none else some (row.length - 1)) =
          some (c - 1)
      simp [finalColIdx, hempty, hrow]
    | cons q qs =>
      have hrec : finalColIdx (q :: qs) = some (c - 1) :=
        ih (fun z hz => h z (List.mem_cons_of_mem _ hz)) (by simp)
      show (match finalColIdx (q :: qs) with
        | some j => some j
        | none => if row.isEmpty then none else some (row.length - 1)) =
          some (c - 1)
      rw [hrec]

/-- The indices produced by enumerating a uniform grid starting at outer
index `n` are exactly the row-major index rectangle. -/
theorem enumFrom_flatMap_uniform {α : Type} (f : Nat → Nat → α) (c : Nat) :
    ∀ (l : List (List String)) (n : Nat), (∀ row ∈ l, row.length = c) →
      (List.enumFrom n l).flatMap
          (fun p => (p.2.enum).map (fun q => f p.1 q.1)) =
        (List.range l.length).flatMap
          (fun i => (List.range c).map (fun j => f (n + i) j)) := by
  intro l
  induction l with
  | nil => intro n _; rfl
  | cons row rest ih =>
    intro n h
    have hrow : row.length = c := h row (List.mem_cons_self _ _)
    have hinner : row.enum.map (fun q => f n q.1) =
        (List.range c).map (fun j => f n j) := by
      rw [List.enum_eq_zip_range,
        show (fun q : Nat × String => f n q.1) =
          (fun j => f n j) ∘ Prod.fst from rfl,
        ← List.map_map, List.map_fst_zip _ _ (by simp), hrow]
    have harith : ∀ i : Nat, n + 1 + i = n + (i + 1) := fun i => by omega
    simp only [List.enumFrom_cons, List.flatMap_cons, hinner,
      ih (n + 1) (fun q hq => h q (List.mem_cons_of_mem _ hq)),
      List.length_cons, List.range_succ_eq_map, List.flatMap_map,
      Function.comp, Nat.succ_eq_add_one, harith, Nat.add_zero]

/-- On a uniform grid with `c` columns, the visited cells form the row-major
index rectangle. -/
theorem meshCells_uniform (lons : List (List String)) (c : Nat)
    (h : ∀ row ∈ lons, row.length = c) :
    meshCells lons = (List.range lons.length).flatMap
      (fun i => (List.range c).map (fun j => (i, j))) := by
  unfold meshCells
  rw [show lons.enum = List.enumFrom 0 lons from rfl,
    enumFrom_flatMap_uniform _ c lons 0 h]
  simp

/-- Python indexing into a grid that covers the cell returns the entry. -/
theorem pyIndex2_ok (g : List (List String)) (c i j : Nat)
    (hi : i < g.length) (hrows : ∀ row ∈ g, row.length = c) (hj : j < c) :
    pyIndex2 g i j = .ok ((g.getD i []).getD j "") := by
  have h1 : g[i]? = some g[i] := List.getElem?_eq_getElem hi
  have hj' : j < g[i].length := by
    rw [hrows g[i] (List.getElem_mem hi)]
    exact hj
  have h2 : (g[i])[j]? = some (g[i])[j] := List.getElem?_eq_getElem hj'
  simp [pyIndex2, h1, h2, List.getD_eq_getElem?_getD]

/-- An `Except`-valued map that succeeds pointwise succeeds as a whole, in
order. -/
theorem mapM_ok_of_forall {α β : Type} :
    ∀ (l : List α) (f : α → Except String β) (g : α → β),
      (∀ x ∈ l, f x = .ok (g x)) → l.mapM f = .ok (l.map g) := by
  intro l f g
  induction l with
  | nil => intro _; rfl
  | cons a as ih =>
    intro h
    rw [List.mapM_cons, h a (List.mem_cons_self _ _),
      ih (fun x hx => h x (List.mem_cons_of_mem _ hx))]
    rfl

/-- C4: for a fault-source rupture whose grids are uniform with `c` columns,
the mesh encoder emits one node per `(row, col)` cell in row-major order
(each carrying its row index, col index, lon, lat and depth), and records
`rows` = number of rows and `cols` = `c` (both "highest visited index + 1")
on the mesh element; a grid with zero rows or zero columns instead raises
the invalid-geometry error, which makes `SESXMLWriter.serialize` fail on a
stochastic event set containing such a rupture. -/
theorem spec_C4 (p t : String) (sm gsim : Option String) (r : Rupture)
    (c : Nat) (hfault : r.is_from_fault_source = true)
    (huniform : ∀ row ∈ r.lons, row.length = c) :
    (r.lons.length = 0 ∨ c = 0 →
      _create_rupture_mesh r = .error "Invalid rupture mesh"
      ∧ SESXMLWriter.serialize (SESXMLWriter.init p sm gsim)
          [{ investigation_time := t, ruptures := [r] }] =
        .error "Invalid rupture mesh")
    ∧ (0 < r.lons.length → 0 < c →
      r.lats.length = r.lons.length → (∀ row ∈ r.lats, row.length = c) →
      r.depths.length = r.lons.length → (∀ row ∈ r.depths, row.length = c) →
      _create_rupture_mesh r = .ok (XElem.mk "mesh"
        [("rows", natRepr r.lons.length), ("cols", natRepr c)] none
        ((List.range r.lons.length).flatMap
          (fun i => (List.range c).map (fun j => meshNodeElemOk r i j))))) := by
  constructor
  · intro hzero
    have hmesh : _create_rupture_mesh r = .error "Invalid rupture mesh" := by
      rcases hl : r.lons with _ | ⟨a, as⟩
      · have hnodes : meshNodes r = .ok [] := by
          unfold meshNodes meshCells
          rw [hl]
          rfl
        simp only [_create_rupture_mesh, hnodes, hl]
        rfl
      · rcases hzero with h0 | hc0
        · rw [hl] at h0; simp at h0
        · have hcells0 : meshCells r.lons = [] := by
            rw [meshCells_uniform r.lons c huniform, hc0]
            simp
          have hnodes : meshNodes r = .ok [] := by
            unfold meshNodes
            rw [hcells0]
            rfl
          have hnone : finalColIdx r.lons = none :=
            finalColIdx_of_zero _ (fun row hrow => hc0 ▸ huniform row hrow)
          rw [hl] at hnone
          simp only [_create_rupture_mesh, hnodes, hl, hnone]
          rfl
    have h1 : ruptureElem r = .error "Invalid rupture mesh" := by
      simp only [ruptureElem, hfault, if_true]
      rw [hmesh]; rfl
    have h2 : sesElem { investigation_time := t, ruptures := [r] } =
        .error "Invalid rupture mesh" := by
      simp only [sesElem]
      rw [show ([r].mapM ruptureElem) = Except.error "Invalid rupture mesh"
        from by simp [List.mapM, List.mapM.loop, h1]]
      rfl
    refine ⟨hmesh, ?_⟩
    simp only [SESXMLWriter.serialize, SESXMLWriter.init]
    rw [show (([{ investigation_time := t, ruptures := [r] }] : List SES).mapM
        sesElem) = Except.error "Invalid rupture mesh"
      from by simp [List.mapM, List.mapM.loop, h2]]
    rfl
  · intro hrows hc hlatlen hlat hdeplen hdep
    have hcells := meshCells_uniform r.lons c huniform
    have hok : ∀ ij ∈ meshCells r.lons,
        meshNodeElem r ij.1 ij.2 = .ok (meshNodeElemOk r ij.1 ij.2) := by
      intro ij hij
      rw [hcells] at hij
      simp only [List.mem_flatMap, List.mem_map, List.mem_range] at hij
      obtain ⟨i, hi, j, hj, rfl⟩ := hij
      have e1 := pyIndex2_ok r.lons c i j hi huniform hj
      have e2 := pyIndex2_ok r.lats c i j (hlatlen ▸ hi) hlat hj
      have e3 := pyIndex2_ok r.depths c i j (hdeplen ▸ hi) hdep hj
      simp only [meshNodeElem, e1, e2, e3, meshNodeElemOk]
      rfl
    have hnodes : meshNodes r =
        .ok ((meshCells r.lons).map (fun ij => meshNodeElemOk r ij.1 ij.2)) :=
      mapM_ok_of_forall _ _ _ hok
    have hmapform : ((meshCells r.lons).map
          (fun ij => meshNodeElemOk r ij.1 ij.2)) =
        (List.range r.lons.length).flatMap
          (fun i => (List.range c).map (fun j => meshNodeElemOk r i j)) := by
      rw [hcells, List.map_flatMap]
      simp only [List.map_map]
      rfl
    rw [hmapform] at hnodes
    have hne : r.lons ≠ [] := by
      intro h
      rw [h] at hrows
      simp at hrows
    have hcol := finalColIdx_of_pos c hc r.lons huniform hne
    calc _create_rupture_mesh r
        = .ok (XElem.mk "mesh"
            [("rows", natRepr r.lons.length), ("cols", natRepr (c - 1 + 1))]
            none ((List.range r.lons.length).flatMap
              (fun i => (List.range c).map (fun j => meshNodeElemOk r i j)))) := by
          unfold _create_rupture_mesh
          rw [hnodes]
          show (match r.lons with
            | [] => Except.error "Invalid rupture mesh"
            | _ :: _ =>
                match finalColIdx r.lons with
                | none => Except.error "Invalid rupture mesh"
                | some j =>
                    pure (XElem.mk "mesh"
                      [("rows", natRepr r.lons.length),
                       ("cols", natRepr (j + 1))]
                      none ((List.range r.lons.length).flatMap
                        (fun i => (List.range c).map
                          (fun j => meshNodeElemOk r i j))))) = _
          split
          · exact absurd (by assumption) hne
          · rw [hcol]
            rfl
      _ = .ok (XElem.mk "mesh"
            [("rows", natRepr r.lons.length), ("cols", natRepr c)] none
            ((List.range r.lons.length).flatMap
              (fun i => (List.range c).map (fun j => meshNodeElemOk r i j)))) := by
          rw [Nat.sub_add_cancel hc]

/-- Scenario E rupture: a fault-source rupture whose lon grid has zero
rows. -/
def scenarioE_rupture : Rupture :=
  { magnitude := "6.5", strike := "0.0", dip := "90.0", rake := "0.0",
    tectonic_region_type := "Active Shallow Crust",
    is_from_fault_source := true, lons := [], lats := [], depths := [],
    top_left_corner := ("0", "0", "0"), top_right_corner := ("0", "0", "0"),
    bottom_right_corner := ("0", "0", "0"),
    bottom_left_corner := ("0", "0", "0") }

/-- A fault-source rupture with full 2-by-2 grids, for the positive branch
of the C4 witness. -/
def meshDemo_rupture : Rupture :=
  { magnitude := "6.5", strike := "0.0", dip := "90.0", rake := "0.0",
    tectonic_region_type := "Active Shallow Crust",
    is_from_fault_source := true,
    lons := [["1.0", "1.1"], ["1.2", "1.3"]],
    lats := [["2.0", "2.1"], ["2.2", "2.3"]],
    depths := [["3.0", "3.1"], ["3.2", "3.3"]],
    top_left_corner := ("0", "0", "0"), top_right_corner := ("0", "0", "0"),
    bottom_right_corner := ("0", "0", "0"),
    bottom_left_corner := ("0", "0", "0") }

/-- Witness for C4: Scenario E — a fault-source rupture with a zero-row lon
grid makes the mesh encoder, and `SESXMLWriter.serialize` on an event set
containing it, fail with the invalid-geometry error — and a full 2-by-2
rupture encodes to the expected row-major mesh. -/
theorem spec_C4_witness :
    (_create_rupture_mesh scenarioE_rupture = .error "Invalid rupture mesh"
      ∧ SESXMLWriter.serialize (SESXMLWriter.init "ses.xml" none none)
          [{ investigation_time := "50", ruptures := [scenarioE_rupture] }] =
        .error "Invalid rupture mesh")
    ∧ _create_rupture_mesh meshDemo_rupture = .ok (XElem.mk "mesh"
        [("rows", natRepr 2), ("cols", natRepr 2)] none
        ((List.range 2).flatMap
          (fun i => (List.range 2).map
            (fun j => meshNodeElemOk meshDemo_rupture i j)))) :=
  ⟨(spec_C4 "ses.xml" "50" none none scenarioE_rupture 0 rfl
      (by intro row hrow; simp [scenarioE_rupture] at hrow)).1 (Or.inl rfl),
   (spec_C4 "ses.xml" "50" none none meshDemo_rupture 2 rfl
      (by decide)).2 (by decide) (by decide) rfl (by decide) rfl (by decide)⟩

/-- A decimal rendering is never the empty string. -/
theorem natRepr_data_ne_nil (n : Nat) : (natRepr n).data ≠ [] := by
  unfold natRepr
  split
  · decide
  · next h =>
    have hd : Nat.digits 10 n ≠ [] := Nat.digits_ne_nil_iff_ne_zero.mpr h
    simp [hd]

theorem digitChr_ne_comma : ∀ d < 10, digitChr d ≠ ',' := by decide

theorem digitChr_inj : ∀ d1 < 10, ∀ d2 < 10, digitChr d1 = digitChr d2 → d1 = d2 := by
  decide

/-- A decimal rendering never contains the comma separator. -/
theorem natRepr_no_comma (n : Nat) : ',' ∉ (natRepr n).data := by
  unfold natRepr
  split
  · decide
  · intro hmem
    simp at hmem
    obtain ⟨d, hd, hchr⟩ := hmem
    exact digitChr_ne_comma d (Nat.digits_lt_base (by norm_num) hd) hchr

theorem map_digitChr_inj :
    ∀ (l1 l2 : List Nat), (∀ x ∈ l1, x < 10) → (∀ x ∈ l2, x < 10) →
      l1.map digitChr = l2.map digitChr → l1 = l2 := by
  intro l1
  induction l1 with
  | nil => intro l2 _ _ h; cases l2 <;> simp_all
  | cons a as ih =>
    intro l2 h1 h2 h
    cases l2 with
    | nil => simp at h
    | cons b bs =>
      simp only [List.map_cons, List.cons.injEq] at h
      have ha := h1 a (List.mem_cons_self _ _)
      have hb := h2 b (List.mem_cons_self _ _)
      have := digitChr_inj a ha b hb h.1
      rw [this, ih bs (fun x hx => h1 x (List.mem_cons_of_mem _ hx))
        (fun x hx => h2 x (List.mem_cons_of_mem _ hx)) h.2]

/-- Decimal rendering of naturals is injective. -/
theorem natRepr_inj : Function.Injective natRepr := by
  have key : ∀ k : Nat, k ≠ 0 → (Nat.digits 10 k).map digitChr = ['0'] → False := by
    intro k hk hmap
    have hdig : Nat.digits 10 k = [0] :=
      map_digitChr_inj _ [0]
        (fun x hx => Nat.digits_lt_base (by norm_num) hx)
        (by decide) (by simpa using hmap)
    have hod := Nat.ofDigits_digits 10 k
    rw [hdig] at hod
    exact hk (by simpa using hod.symm)
  intro m n h
  unfold natRepr at h
  by_cases hm : m = 0 <;> by_cases hn : n = 0
  · rw [hm, hn]
  · rw [if_pos hm, if_neg hn] at h
    have hd := congrArg String.data h
    exact (key n hn (by simpa [List.reverse_eq_iff] using hd.symm)).elim
  · rw [if_neg hm, if_pos hn] at h
    have hd := congrArg String.data h
    exact (key m hm (by simpa [List.reverse_eq_iff] using hd)).elim
  · rw [if_neg hm, if_neg hn] at h
    have hd := congrArg String.data h
    have hmap : (Nat.digits 10 m).map digitChr = (Nat.digits 10 n).map digitChr :=
      List.reverse_injective hd
    have hdig : Nat.digits 10 m = Nat.digits 10 n :=
      map_digitChr_inj _ _
        (fun x hx => Nat.digits_lt_base (by norm_num) hx)
        (fun x hx => Nat.digits_lt_base (by norm_num) hx) hmap
    have := congrArg (Nat.ofDigits 10) hdig
    simpa [Nat.ofDigits_digits] using this

theorem pyJoin_data (sep : String) :
    ∀ l : List String, (pyJoin sep l).data = charJoin sep.data (l.map String.data) := by
  intro l
  induction l with
  | nil => rfl
  | cons s rest ih =>
    cases rest with
    | nil => rfl
    | cons b bs =>
      show (s ++ sep ++ pyJoin sep (b :: bs)).data =
        s.data ++ sep.data ++ charJoin sep.data ((b :: bs).map String.data)
      rw [String.data_append, String.data_append, ih]

theorem append_sep_cancel (sep : Char) :
    ∀ (a1 a2 r1 r2 : List Char), sep ∉ a1 → sep ∉ a2 →
      a1 ++ sep :: r1 = a2 ++ sep :: r2 → a1 = a2 ∧ r1 = r2 := by
  intro a1
  induction a1 with
  | nil =>
    intro a2 r1 r2 _ h2 heq
    cases a2 with
    | nil => simpa using heq
    | cons c cs =>
      simp only [List.nil_append, List.cons_append, List.cons.injEq] at heq
      exact absurd (heq.1 ▸ List.mem_cons_self c cs) h2
  | cons x xs ih =>
    intro a2 r1 r2 h1 h2 heq
    cases a2 with
    | nil =>
      simp only [List.nil_append, List.cons_append, List.cons.injEq] at heq
      exact absurd (heq.1 ▸ List.mem_cons_self x xs) h1
    | cons y ys =>
      simp only [List.cons_append, List.cons.injEq] at heq
      obtain ⟨hxy, htail⟩ := heq
      obtain ⟨he, hr⟩ := ih ys r1 r2
        (fun hmem => h1 (List.mem_cons_of_mem _ hmem))
        (fun hmem => h2 (List.mem_cons_of_mem _ hmem)) htail
      exact ⟨by rw [hxy, he], hr⟩

theorem charJoin_inj (sep : Char) :
    ∀ (l1 l2 : List (List Char)),
      (∀ p ∈ l1, p ≠ [] ∧ sep ∉ p) → (∀ p ∈ l2, p ≠ [] ∧ sep ∉ p) →
      charJoin [sep] l1 = charJoin [sep] l2 → l1 = l2 := by
  intro l1
  induction l1 with
  | nil =>
    intro l2 _ h2 heq
    cases l2 with
    | nil => rfl
    | cons q qs =>
      cases qs with
      | nil => exact absurd heq.symm (h2 q (List.mem_cons_self _ _)).1
      | cons q2 qs2 =>
        exfalso
        have : ([] : List Char) = q ++ sep :: charJoin [sep] (q2 :: qs2) := by
          simpa [charJoin, List.append_assoc] using heq
        exact List.cons_ne_nil _ _ (List.append_eq_nil.mp this.symm).2
  | cons p ps ih =>
    intro l2 h1 h2 heq
    cases l2 with
    | nil =>
      cases ps with
      | nil => exact absurd heq (h1 p (List.mem_cons_self _ _)).1
      | cons p2 ps2 =>
        exfalso
        have : p ++ sep :: charJoin [sep] (p2 :: ps2) = ([] : List Char) := by
          simpa [charJoin, List.append_assoc] using heq
        exact List.cons_ne_nil _ _ (List.append_eq_nil.mp this).2
    | cons q qs =>
      cases ps with
      | nil =>
        cases qs with
        | nil => rw [show p = q from heq]
        | cons q2 qs2 =>
          exfalso
          have hin : sep ∈ (p : List Char) := by
            have : (p : List Char) = q ++ sep :: charJoin [sep] (q2 :: qs2) := by
              simpa [charJoin, List.append_assoc] using heq
            rw [this]
            exact List.mem_append_right _ (List.mem_cons_self _ _)
          exact (h1 p (List.mem_cons_self _ _)).2 hin
      | cons p2 ps2 =>
        cases qs with
        | nil =>
          exfalso
          have hin : sep ∈ (q : List Char) := by
            have : (q : List Char) = p ++ sep :: charJoin [sep] (p2 :: ps2) := by
              simpa [charJoin, List.append_assoc] using heq.symm
            rw [this]
            exact List.mem_append_right _ (List.mem_cons_self _ _)
          exact (h2 q (List.mem_cons_self _ _)).2 hin
        | cons q2 qs2 =>
          have heq' : p ++ sep :: charJoin [sep] (p2 :: ps2) =
              q ++ sep :: charJoin [sep] (q2 :: qs2) := by
            simpa [charJoin, List.append_assoc] using heq
          obtain ⟨hpq, htail⟩ := append_sep_cancel sep p q _ _
            (h1 p (List.mem_cons_self _ _)).2
            (h2 q (List.mem_cons_self _ _)).2 heq'
          have := ih (q2 :: qs2)
            (fun z hz => h1 z (List.mem_cons_of_mem _ hz))
            (fun z hz => h2 z (List.mem_cons_of_mem _ hz)) htail
          rw [hpq, this]

/-- Comma-joining decimal renderings is injective: the joined string
determines the list of numbers. -/
theorem pyJoin_comma_natRepr_inj (l1 l2 : List Nat)
    (h : pyJoin "," (l1.map natRepr) = pyJoin "," (l2.map natRepr)) :
    l1 = l2 := by
  have hd := congrArg String.data h
  rw [pyJoin_data, pyJoin_data] at hd
  have hmaps := charJoin_inj ','
    ((l1.map natRepr).map String.data) ((l2.map natRepr).map String.data)
    (by
      intro pdat hp
      rw [List.map_map] at hp
      obtain ⟨i, _, rfl⟩ := List.mem_map.mp hp
      exact ⟨natRepr_data_ne_nil i, natRepr_no_comma i⟩)
    (by
      intro pdat hp
      rw [List.map_map] at hp
      obtain ⟨i, _, rfl⟩ := List.mem_map.mp hp
      exact ⟨natRepr_data_ne_nil i, natRepr_no_comma i⟩)
    hd
  rw [List.map_map, List.map_map] at hmaps
  exact List.map_injective_iff.mpr
    (fun a b hab => natRepr_inj (String.ext hab)) hmaps

theorem allIndices_length : ∀ s : List Nat, (allIndices s).length = s.prod := by
  intro s
  induction s with
  | nil => rfl
  | cons d ds ih =>
    have hconst : (List.length ∘ fun i : Nat =>
        List.map (fun x => i :: x) (allIndices ds)) = fun _ : Nat => ds.prod := by
      funext i
      simp [ih]
    simp [allIndices, List.length_flatMap, hconst, List.map_const,
      List.sum_replicate, smul_eq_mul, List.prod_cons]

/-- An index tuple is enumerated iff it is pointwise within the shape. -/
theorem allIndices_mem :
    ∀ (s : List Nat) (idx : List Nat),
      idx ∈ allIndices s ↔ List.Forall₂ (· < ·) idx s := by
  intro s
  induction s with
  | nil =>
    intro idx
    simp [allIndices, List.forall₂_nil_right_iff]
  | cons d ds ih =>
    intro idx
    simp only [allIndices, List.mem_flatMap, List.mem_map, List.mem_range]
    constructor
    · rintro ⟨i, hi, tail, htail, rfl⟩
      exact List.Forall₂.cons hi ((ih tail).mp htail)
    · intro h
      cases h with
      | cons hrel htail =>
        exact ⟨_, hrel, _, (ih _).mpr htail, rfl⟩

theorem pairwise_flatMap {α β : Type} {R : β → β → Prop} {f : α → List β} :
    ∀ {l : List α}, (∀ a ∈ l, (f a).Pairwise R) →
      l.Pairwise (fun a b => ∀ x ∈ f a, ∀ y ∈ f b, R x y) →
      (l.flatMap f).Pairwise R := by
  intro l
  induction l with
  | nil => intro _ _; simp
  | cons a as ih =>
    intro hin hpw
    rw [List.flatMap_cons, List.pairwise_append]
    obtain ⟨hcross, htail⟩ := List.pairwise_cons.mp hpw
    refine ⟨hin a (List.mem_cons_self _ _),
      ih (fun b hb => hin b (List.mem_cons_of_mem _ hb)) htail, ?_⟩
    intro x hx y hy
    obtain ⟨b, hb, hyb⟩ := List.mem_flatMap.mp hy
    exact hcross b hb x hx y hyb

/-- The row-major enumeration lists every index at most once. -/
theorem allIndices_nodup : ∀ s : List Nat, (allIndices s).Nodup := by
  intro s
  induction s with
  | nil => simp [allIndices]
  | cons d ds ih =>
    refine List.nodup_flatMap.mpr ⟨?_, ?_⟩
    · intro i _
      exact ih.map (fun a b hab => by simpa using hab)
    · refine (List.pairwise_lt_range d).imp ?_
      intro i j hij x hxi hxj
      obtain ⟨t1, _, rfl⟩ := List.mem_map.mp hxi
      obtain ⟨t2, _, ht⟩ := List.mem_map.mp hxj
      injection ht with h1 _
      exact absurd h1 (Nat.ne_of_lt hij).symm

/-- The row-major enumeration is strictly lexicographically sorted, first
axis slowest. -/
theorem allIndices_sorted :
    ∀ s : List Nat, (allIndices s).Pairwise (List.Lex (· < ·)) := by
  intro s
  induction s with
  | nil => simp [allIndices]
  | cons d ds ih =>
    refine pairwise_flatMap ?_ ?_
    · intro i _
      exact List.Pairwise.map _ (fun a b hab => List.Lex.cons hab) ih
    · refine (List.pairwise_lt_range d).imp ?_
      intro i j hij x hxi y hyj
      obtain ⟨t1, _, rfl⟩ := List.mem_map.mp hxi
      obtain ⟨t2, _, rfl⟩ := List.mem_map.mp hyj
      exact List.Lex.rel hij

theorem disaggMatrixElem_attr_dims (r : DisaggResult) :
    (disaggMatrixElem r).attr "dims" =
      some (pyJoin "," (r.matrix.shape.map natRepr)) := rfl

theorem probElem_inj : Function.Injective probElem := by
  intro a b h
  simp only [probElem, XElem.mk.injEq, List.cons.injEq, Prod.mk.injEq,
    and_true, true_and] at h
  exact Prod.ext (pyJoin_comma_natRepr_inj _ _ h.1) h.2

/-- C7: the emitted `dims` attribute is the comma-joined matrix shape in
native axis order; the cell enumeration visits every valid multi-index
exactly once, in the canonical row-major (lexicographic) order over the same
axis order as `dims`; and the emitted `dims` attribute plus the emitted
`prob` cells determine the original matrix exactly — equal emissions force
equal shape and equal values at every position. -/
theorem spec_C7 (r1 r2 : DisaggResult) (h1 : r1.matrix.wf) (h2 : r2.matrix.wf) :
    ((disaggMatrixElem r1).attr "dims" =
        some (pyJoin "," (r1.matrix.shape.map natRepr)))
    ∧ ((ndenumerate r1.matrix).map Prod.fst = allIndices r1.matrix.shape
       ∧ ((ndenumerate r1.matrix).map Prod.fst).Nodup
       ∧ (∀ idx, idx ∈ (ndenumerate r1.matrix).map Prod.fst ↔
            List.Forall₂ (· < ·) idx r1.matrix.shape)
       ∧ ((ndenumerate r1.matrix).map Prod.fst).Pairwise (List.Lex (· < ·)))
    ∧ ((disaggMatrixElem r1).attr "dims" = (disaggMatrixElem r2).attr "dims" →
       (disaggMatrixElem r1).children = (disaggMatrixElem r2).children →
       r1.matrix = r2.matrix) := by
  have hfst : ∀ (r : DisaggResult), r.matrix.wf →
      (ndenumerate r.matrix).map Prod.fst = allIndices r.matrix.shape := by
    intro r hr
    unfold ndenumerate
    exact List.map_fst_zip _ _ (by rw [allIndices_length]; exact hr.ge)
  refine ⟨disaggMatrixElem_attr_dims r1, ⟨hfst r1 h1, ?_, ?_, ?_⟩, ?_⟩
  · rw [hfst r1 h1]; exact allIndices_nodup _
  · intro idx; rw [hfst r1 h1]; exact allIndices_mem _ idx
  · rw [hfst r1 h1]; exact allIndices_sorted _
  · intro hdims hchild
    rw [disaggMatrixElem_attr_dims r1, disaggMatrixElem_attr_dims r2] at hdims
    have hshape : r1.matrix.shape = r2.matrix.shape :=
      pyJoin_comma_natRepr_inj _ _ (Option.some.inj hdims)
    simp only [disaggMatrixElem, XElem.children] at hchild
    have hcells : ndenumerate r1.matrix = ndenumerate r2.matrix :=
      List.map_injective_iff.mpr probElem_inj hchild
    have e1 : (ndenumerate r1.matrix).map Prod.snd = r1.matrix.flat := by
      unfold ndenumerate
      exact List.map_snd_zip _ _ (by rw [allIndices_length]; exact h1.le)
    have e2 : (ndenumerate r2.matrix).map Prod.snd = r2.matrix.flat := by
      unfold ndenumerate
      exact List.map_snd_zip _ _ (by rw [allIndices_length]; exact h2.le)
    have hflat : r1.matrix.flat = r2.matrix.flat := by
      rw [← e1, ← e2, hcells]
    have heta : r1.matrix = ⟨r1.matrix.shape, r1.matrix.flat⟩ := rfl
    rw [heta, hshape, hflat]

/-- The C7 witness matrix: a concrete 2-by-2 `Mag`-`Dist` result. -/
def c7_result : DisaggResult :=
  { matrix := { shape := [2, 2], flat := ["0.1", "0.2", "0.3", "0.4"] },
    dim_labels := ["Mag", "Dist"], poe := "0.1", iml := "0.5" }

/-- Witness for C7 at a concrete well-formed 2-by-2 matrix. -/
theorem spec_C7_witness :
    c7_result.matrix.wf
    ∧ (((disaggMatrixElem c7_result).attr "dims" =
          some (pyJoin "," (c7_result.matrix.shape.map natRepr)))
      ∧ ((ndenumerate c7_result.matrix).map Prod.fst =
            allIndices c7_result.matrix.shape
        ∧ ((ndenumerate c7_result.matrix).map Prod.fst).Nodup
        ∧ (∀ idx, idx ∈ (ndenumerate c7_result.matrix).map Prod.fst ↔
              List.Forall₂ (· < ·) idx c7_result.matrix.shape)
        ∧ ((ndenumerate c7_result.matrix).map Prod.fst).Pairwise
            (List.Lex (· < ·)))
      ∧ ((disaggMatrixElem c7_result).attr "dims" =
            (disaggMatrixElem c7_result).attr "dims" →
          (disaggMatrixElem c7_result).children =
            (disaggMatrixElem c7_result).children →
          c7_result.matrix = c7_result.matrix)) :=
  ⟨rfl, spec_C7 c7_result c7_result rfl rfl⟩
